import Mathlib

/-!
# Verification of `sphinxcontrib/autodoc_pydantic/inspection.py`

A shallow embedding of the inspection layer of autodoc_pydantic.  A pydantic
model, as far as the inspection module reads it, consists of:

* `__fields__` — an insertion-ordered mapping from field name to a
  `ModelField` (we keep the field info's `default` and, abstracting the
  pydantic schema machinery, whether the field's type can be rendered as
  JSON schema);
* `__validators__` — a mapping from field target (a declared field name or
  the special `"*"` target) to the list of validator wrappers; a wrapper is
  represented by its function name, since the code only ever reads
  `validator.func.__name__`;
* `__pre_root_validators__` / `__post_root_validators__` — lists of root
  validator entries.  In pydantic v1, `extract_root_validators` stores a
  *bare function* for each pre-root validator but a `(skip_on_failure, func)`
  *tuple* for each post-root validator.  The inspection module extracts names
  with `validator[1].__name__` for both lists, so subscripting a pre-root
  entry raises `TypeError: 'function' object is not subscriptable`; the
  embedding keeps this error path explicit (`Except`), since it propagates
  through every inspection property that touches root validators;
* `__module__` and `__name__`, used for building references, and the object
  identity `id(model)` used as the cache key.

Python dictionaries are embedded as association lists (`List (String × _)`)
with first-match lookup; a real Python dict never holds a duplicate key, so
theorems that depend on key uniqueness take a `Nodup` hypothesis on the keys.
-/

/-- Default value stored in a pydantic `FieldInfo`.  `undefined` is pydantic's
`Undefined` sentinel (of class `UndefinedType`), `ellipsis` is the `...`
object (the sole instance of `type(...)`), `noneVal` is an explicit `None`
default, and `value` abstracts any other concrete default object. -/
inductive PyDefault where
  | undefined
  | ellipsis
  | noneVal
  | value (v : String)
deriving DecidableEq, Repr

/-- The part of pydantic's `FieldInfo` read by the inspection module. -/
structure FieldInfo where
  default : PyDefault
deriving DecidableEq, Repr

/-- A pydantic `ModelField` as read by the inspection module.  `serializable`
abstracts the pydantic behaviour probed by `FieldInspector.is_json_serializable`:
whether `create_model("_", test_field=(field.type_, field.default)).schema()`
succeeds for this field. -/
structure PyField where
  fieldInfo : FieldInfo
  serializable : Bool
deriving DecidableEq, Repr

/-- The exception classes relevant to the inspection module: the
`SchemaInspector.sanitized` handler catches `(TypeError, ValueError)`, and
subscripting a bare function raises `TypeError`. -/
inductive PyError where
  | typeError
  | valueError
deriving DecidableEq, Repr

/-- An entry of `__pre_root_validators__` or `__post_root_validators__`.  In
pydantic v1 a pre-root entry is the bare validator function (`func`), while a
post-root entry is the tuple `(skip_on_failure, func)` (`tuple`); functions
are represented by their `__name__`. -/
inductive RootValidatorEntry where
  | func (name : String)
  | tuple (skip_on_failure : Bool) (name : String)
deriving DecidableEq, Repr

/-- A pydantic model class, restricted to the attributes the inspection module
reads. -/
structure Model where
  id : Nat
  module : String
  name : String
  fields : List (String × PyField)
  validators_attr : List (String × List String)
  pre_root : List RootValidatorEntry
  post_root : List RootValidatorEntry
deriving DecidableEq, Repr

namespace ValidatorInspector

/-- `ValidatorInspector.get_names_from_wrappers`: the set
`{validator.func.__name__ for validator in validators}`; wrappers are embedded
as their function names. -/
def get_names_from_wrappers (validators : List String) : Finset String :=
  validators.toFinset

/-- The expression `validator[1].__name__` of `get_name_from_root`:
subscripting a bare function raises `TypeError: 'function' object is not
subscriptable`; on a `(skip_on_failure, func)` tuple it selects the function,
whose `__name__` is its name. -/
def root_entry_name : RootValidatorEntry → Except PyError String
  | .func _ => .error .typeError
  | .tuple _ n => .ok n

/-- The helper `get_name_from_root` of `names_root_validators`: the set
comprehension `{validator[1].__name__ for validator in validators}`, raising
as soon as an entry is not subscriptable. -/
def get_name_from_root (validators : List RootValidatorEntry) :
    Except PyError (Finset String) :=
  match validators with
  | [] => .ok ∅
  | v :: rest => do
      let n ← root_entry_name v
      let s ← get_name_from_root rest
      pure (insert n s)

/-- `ValidatorInspector.names_root_validators`: names from
`__pre_root_validators__` unioned with names from `__post_root_validators__`;
raises `TypeError` whenever a pre-root entry is a bare function (every
pre-root validator in pydantic v1). -/
def names_root_validators (m : Model) : Except PyError (Finset String) := do
  let pre ← get_name_from_root m.pre_root
  let post ← get_name_from_root m.post_root
  pure (pre ∪ post)

/-- The expression `self.attribute.get("*", [])`: the validator wrappers bound
to the `"*"` field target, or the empty list when the key is absent. -/
def star_wrappers (m : Model) : List String :=
  (m.validators_attr.lookup "*").getD []

/-- `ValidatorInspector.names_asterisk_validators`. -/
def names_asterisk_validators (m : Model) : Except PyError (Finset String) := do
  let root ← names_root_validators m
  pure (get_names_from_wrappers (star_wrappers m) ∪ root)

/-- `chain.from_iterable(self.attribute.values())`. -/
def all_wrappers (m : Model) : List String :=
  (m.validators_attr.map Prod.snd).flatten

/-- `ValidatorInspector.names_standard_validators`. -/
def names_standard_validators (m : Model) : Except PyError (Finset String) := do
  let asterisk ← names_asterisk_validators m
  pure (get_names_from_wrappers (all_wrappers m) \ asterisk)

/-- `ValidatorInspector.names`. -/
def names (m : Model) : Except PyError (Finset String) := do
  let asterisks ← names_asterisk_validators m
  let standard ← names_standard_validators m
  pure (asterisks ∪ standard)

/-- `ValidatorInspector.is_asterisk`. -/
def is_asterisk (m : Model) (name : String) : Except PyError Bool := do
  let asterisk ← names_asterisk_validators m
  pure (name ∈ asterisk)

end ValidatorInspector

namespace FieldInspector

/-- `FieldInspector.names`: `list(model.__fields__.keys())`. -/
def names (m : Model) : List String :=
  m.fields.map Prod.fst

/-- `FieldInspector.get`: `self.attribute[name]`, `none` standing for the
`KeyError` raised on a missing key. -/
def get (m : Model) (name : String) : Option PyField :=
  m.fields.lookup name

/-- `FieldInspector.get_property_from_field_info` specialised to the
`"default"` property (the only property the claims touch); the attribute is
always present on a `FieldInfo`. -/
def get_default (m : Model) (field_name : String) : Option PyDefault :=
  (get m field_name).map (fun f => f.fieldInfo.default)

/-- `isinstance(default_value, (UndefinedType, type(...)))`: `Undefined` is
the only `UndefinedType` instance and `...` the only `type(...)` instance. -/
def isinstance_undefined_or_ellipsis : PyDefault → Bool
  | .undefined => true
  | .ellipsis => true
  | _ => false

/-- `FieldInspector.is_required`; `none` stands for the `KeyError` on an
unknown field name. -/
def is_required (m : Model) (field_name : String) : Option Bool :=
  (get_default m field_name).map isinstance_undefined_or_ellipsis

/-- `FieldInspector.is_json_serializable`; `none` stands for the `KeyError`
on an unknown field name.  The pydantic probe (building a one-field model and
generating its schema) is abstracted by the field's `serializable` flag. -/
def is_json_serializable (m : Model) (field_name : String) : Option Bool :=
  (get m field_name).map (fun f => f.serializable)

/-- `FieldInspector.non_json_serializable`. -/
def non_json_serializable (m : Model) : List String :=
  (names m).filter (fun name => is_json_serializable m name ≠ some true)

/-- `FieldInspector.validator_names_standard`: per-field validator names from
`__validators__` (the `"*"` key, when present, is carried along as in the
source). -/
def validator_names_standard (m : Model) : List (String × Finset String) :=
  m.validators_attr.map
    (fun p => (p.1, ValidatorInspector.get_names_from_wrappers p.2))

/-- `FieldInspector.validator_names_root`: `{"*": names_root_validators}`;
inherits the `TypeError` of the root-name extraction. -/
def validator_names_root (m : Model) :
    Except PyError (List (String × Finset String)) := do
  let root ← ValidatorInspector.names_root_validators m
  pure [("*", root)]

/-- Python dict assignment `d[k] = v`: replace in place when the key exists,
append otherwise. -/
def dictSet (d : List (String × Finset String)) (k : String) (v : Finset String) :
    List (String × Finset String) :=
  if k ∈ d.map Prod.fst then
    d.map (fun p => if p.1 = k then (k, v) else p)
  else
    d ++ [(k, v)]

/-- Python `d.get(k, default)`. -/
def dictGetD (d : List (String × Finset String)) (k : String) (v : Finset String) :
    Finset String :=
  (d.lookup k).getD v

/-- `FieldInspector.validator_names`: the standard mapping with the `"*"`
entry set to `standard.get("*", set()).union(root["*"])`; the subscript
`root["*"]` (always present) is embedded as a lookup with empty default. -/
def validator_names (m : Model) :
    Except PyError (List (String × Finset String)) := do
  let standard := validator_names_standard m
  let root ← validator_names_root m
  let asterisk := dictGetD standard "*" ∅ ∪ dictGetD root "*" ∅
  pure (dictSet standard "*" asterisk)

end FieldInspector

/-- The JSON schema value produced by pydantic's `model.schema()`, abstracted
as the data it is computed from: the model's name (its title) and its fields. -/
structure PySchema where
  title : String
  fields : List (String × PyField)
deriving DecidableEq, Repr

/-- Modelled pydantic behaviour of `model.schema()`: schema generation
succeeds when every field's type can be rendered as JSON schema and raises a
`ValueError` ("Value not declarable with JSON Schema") when some field's type
cannot serialize. -/
def Model.schema (m : Model) : Except PyError PySchema :=
  if m.fields.all (fun p => p.2.serializable) then
    .ok ⟨m.name, m.fields⟩
  else
    .error .valueError

/-- The field descriptor produced by substituting `(TypeVar(name), None)` for
an invalid field in `create_sanitized_model`: a `TypeVar` type is declarable
with JSON schema, and the default is `None`. -/
def typevar_field : PyField :=
  { fieldInfo := { default := .noneVal }, serializable := true }

namespace SchemaInspector

/-- `SchemaInspector.create_sanitized_model`: `create_model` with
`__base__=self.model` and keyword overrides `{name: (TypeVar(name), None)}`
for each non-JSON-serializable field; a redefined field keeps its position in
pydantic's inherited field mapping. -/
def create_sanitized_model (m : Model) : Model :=
  let invalid := FieldInspector.non_json_serializable m
  let newFields :=
    m.fields.map (fun p => if p.1 ∈ invalid then (p.1, typevar_field) else p)
  { m with fields := newFields }

/-- `SchemaInspector.sanitized`: return `model.schema()`, and on a
`TypeError`/`ValueError` fall back to the sanitized model's schema. -/
def sanitized (m : Model) : Except PyError PySchema :=
  match m.schema with
  | .ok s => .ok s
  | .error _ => (create_sanitized_model m).schema

end SchemaInspector

/-- `ValidatorFieldMap`, the named tuple of `inspection.py`. -/
structure ValidatorFieldMap where
  field : String
  validator : String
  is_asterisk : Bool
  model_path : String
deriving DecidableEq, Repr

namespace ValidatorFieldMap

/-- `ValidatorFieldMap._get_ref`. -/
def get_ref (self : ValidatorFieldMap) (name : String) : String :=
  self.model_path ++ "." ++ name

/-- `ValidatorFieldMap.field_ref`. -/
def field_ref (self : ValidatorFieldMap) : String :=
  if self.is_asterisk then self.model_path else self.get_ref self.field

/-- `ValidatorFieldMap.validator_ref`. -/
def validator_ref (self : ValidatorFieldMap) : String :=
  self.get_ref self.validator

end ValidatorFieldMap

namespace ReferenceInspector

/-- `ReferenceInspector.model_path`. -/
def model_path (m : Model) : String :=
  m.module ++ "." ++ m.name

/-- `ReferenceInspector.create_model_reference`. -/
def create_model_reference (m : Model) (name : String) : String :=
  model_path m ++ "." ++ name

/-- `ReferenceInspector._create_mappings_asterisk`: one record per name in the
`"*"` entry of `fields.validator_names` (the entry `pop` retrieves; it always
exists since `validator_names` sets it); inherits the `TypeError` raised while
building `validator_names` for a model with a pre-root validator. -/
def create_mappings_asterisk (m : Model) :
    Except PyError (Finset ValidatorFieldMap) := do
  let field_validator_names ← FieldInspector.validator_names m
  let asterisk_validators := FieldInspector.dictGetD field_validator_names "*" ∅
  pure (asterisk_validators.image
    (fun validator => ⟨"all fields", validator, true, model_path m⟩))

/-- `ReferenceInspector._create_mappings_standard`: for every item of
`fields.validator_names`, one record per validator name that is not an
asterisk validator.  The per-validator `is_asterisk` calls all recompute the
same asterisk name set (or all raise the same `TypeError`), embedded as one
binding of that set. -/
def create_mappings_standard (m : Model) :
    Except PyError (Finset ValidatorFieldMap) := do
  let field_validator_names ← FieldInspector.validator_names m
  let asterisk ← ValidatorInspector.names_asterisk_validators m
  pure (field_validator_names.foldr
    (fun p acc =>
      (p.2.filter (fun v => v ∉ asterisk)).image
        (fun validator => ⟨p.1, validator, false, model_path m⟩) ∪ acc)
    ∅)

/-- `ReferenceInspector.mappings`, computed in `__init__` (asterisk mappings
first, then standard, then their union); for a model with a pre-root
validator the constructor raises and no mapping set ever exists. -/
def mappings (m : Model) : Except PyError (Finset ValidatorFieldMap) := do
  let mappings_asterisk ← create_mappings_asterisk m
  let mappings_standard ← create_mappings_standard m
  pure (mappings_standard ∪ mappings_asterisk)

/-- `ReferenceInspector.filter_by_validator_name` on a constructed instance
(as the set of records the returned list holds). -/
def filter_by_validator_name (mappings : Finset ValidatorFieldMap)
    (name : String) : Finset ValidatorFieldMap :=
  mappings.filter (fun mapping => mapping.validator = name)

/-- `ReferenceInspector.filter_by_field_name` on a constructed instance
(as the set of records the returned list holds). -/
def filter_by_field_name (mappings : Finset ValidatorFieldMap)
    (name : String) : Finset ValidatorFieldMap :=
  mappings.filter
    (fun mapping => mapping.field = name ∨ mapping.field = "all fields")

end ReferenceInspector

/-- `ModelInspector`: holds the model and the derived data its composites
compute at construction time (`ReferenceInspector.__init__` computes the
mappings; the other composites are views over `m` itself). -/
structure ModelInspector where
  model : Model
  mappings : Finset ValidatorFieldMap
deriving DecidableEq

/-- The `ModelInspector(model)` constructor; raises whatever
`ReferenceInspector.__init__` raises. -/
def ModelInspector.ofModel (m : Model) : Except PyError ModelInspector := do
  let maps ← ReferenceInspector.mappings m
  pure ⟨m, maps⟩

/-- `ModelWrapper`: holds the model and its `ModelInspector`. -/
structure ModelWrapper where
  model : Model
  wrapper : ModelInspector
deriving DecidableEq

namespace ModelWrapper

/-- The `ModelWrapper(model)` constructor: running it is "computing the
inspection" for the model; it raises whatever the inspection raises. -/
def ofModel (m : Model) : Except PyError ModelWrapper := do
  let inspector ← ModelInspector.ofModel m
  pure ⟨m, inspector⟩

/-- The process-wide `ModelWrapper.CACHED` dictionary, keyed by `id(model)`;
insertions prepend, so first-match lookup sees the newest binding (the code
only inserts a key it has just found absent, so keys stay unique). -/
abbrev Cache := List (Nat × ModelWrapper)

/-- `ModelWrapper.factory`: look up `id(model)` in the cache; on a hit return
the cached wrapper (a `ModelWrapper` instance is always truthy), otherwise
construct, cache and return a new wrapper.  If the construction raises, the
exception propagates and the cache assignment never runs.  The final
component counts how many `ModelWrapper` constructions the call attempted. -/
def factory (cache : Cache) (m : Model) :
    Except PyError ModelWrapper × Cache × Nat :=
  match cache.lookup m.id with
  | some result => (.ok result, cache, 0)
  | none =>
      match ofModel m with
      | .ok mapping => (.ok mapping, (m.id, mapping) :: cache, 1)
      | .error e => (.error e, cache, 1)

/-- `ModelWrapper.get_fields` on a constructed wrapper. -/
def get_fields (w : ModelWrapper) : List String :=
  FieldInspector.names w.wrapper.model

end ModelWrapper

/-!
## Example models

`exampleModel` mirrors a pydantic v1 model with three fields (required,
defaulted to `None`, and defaulted to a non-serializable object), a standard
validator on `"a"`, an asterisk validator on `"*"`, one pre-root validator
(stored as a bare function, as pydantic v1 does) and one post-root validator
(stored as a `(skip_on_failure, func)` tuple).  `exampleModelPost` has no
pre-root validator, so its inspection succeeds.
-/

def exampleModel : Model :=
  { id := 1
    module := "example"
    name := "M"
    fields := [("a", ⟨⟨.undefined⟩, true⟩), ("b", ⟨⟨.noneVal⟩, true⟩),
               ("c", ⟨⟨.value "obj"⟩, false⟩)]
    validators_attr := [("a", ["check_a", "check_all"]), ("*", ["check_all"])]
    pre_root := [.func "pre_v"]
    post_root := [.tuple false "post_v"] }

/-- A model with no validator bound to the `"*"` target (and, like
`exampleModel`, a pre-root validator stored as a bare function). -/
def exampleModelNoStar : Model :=
  { exampleModel with id := 2, validators_attr := [("a", ["check_a"])] }

/-- A model whose inspection succeeds: no pre-root validator. -/
def exampleModelPost : Model :=
  { id := 3
    module := "example"
    name := "P"
    fields := [("a", ⟨⟨.undefined⟩, true⟩), ("b", ⟨⟨.noneVal⟩, true⟩)]
    validators_attr := [("a", ["check_a", "check_all"]), ("*", ["check_all"])]
    pre_root := []
    post_root := [.tuple false "post_v"] }

/-- The mapping set the inspection computes for `exampleModelPost`. -/
def examplePostMappings : Finset ValidatorFieldMap :=
  (ReferenceInspector.mappings exampleModelPost).toOption.getD ∅

/-- The wrapper the constructor builds for `exampleModelPost`. -/
def examplePostWrapper : ModelWrapper :=
  ⟨exampleModelPost, ⟨exampleModelPost, examplePostMappings⟩⟩

/-!
## Helper lemmas
-/

theorem exbind_ok {α β : Type} (a : α) (f : α → Except PyError β) :
    (Except.ok a : Except PyError α) >>= f = f a := rfl

theorem exbind_error {α β : Type} (e : PyError) (f : α → Except PyError β) :
    (Except.error e : Except PyError α) >>= f = Except.error e := rfl

theorem expure_eq {α : Type} (a : α) : (pure a : Except PyError α) = Except.ok a := rfl

theorem lookup_map_toFinset (d : List (String × List String)) (k : String) :
    (d.map (fun p => (p.1, ValidatorInspector.get_names_from_wrappers p.2))).lookup k =
      (d.lookup k).map List.toFinset := by
  induction d with
  | nil => rfl
  | cons p d ih =>
      obtain ⟨a, b⟩ := p
      by_cases h : a = k
      · subst h
        simp [List.lookup_cons, ValidatorInspector.get_names_from_wrappers]
      · simp [List.lookup_cons, beq_false_of_ne (Ne.symm h), ih]

theorem dictGetD_standard_star (m : Model) :
    FieldInspector.dictGetD (FieldInspector.validator_names_standard m) "*" ∅ =
      (ValidatorInspector.star_wrappers m).toFinset := by
  unfold FieldInspector.dictGetD FieldInspector.validator_names_standard
    ValidatorInspector.star_wrappers
  rw [lookup_map_toFinset]
  cases m.validators_attr.lookup "*" <;> simp

theorem lookup_map_replace (d : List (String × Finset String)) (k : String)
    (v : Finset String) (h : k ∈ d.map Prod.fst) :
    (d.map (fun p => if p.1 = k then (k, v) else p)).lookup k = some v := by
  induction d with
  | nil => simp at h
  | cons p d ih =>
      obtain ⟨a, b⟩ := p
      by_cases hk : a = k
      · subst hk
        simp [List.lookup_cons]
      · have h' : k ∈ d.map Prod.fst := by
          rcases List.mem_map.mp h with ⟨q, hq, hq1⟩
          rcases List.mem_cons.mp hq with rfl | hq'
          · exact absurd hq1 hk
          · exact List.mem_map.mpr ⟨q, hq', hq1⟩
        simp [hk, List.lookup_cons, beq_false_of_ne (Ne.symm hk), ih h']

theorem lookup_append_missing (d : List (String × Finset String)) (k : String)
    (v : Finset String) (h : k ∉ d.map Prod.fst) :
    (d ++ [(k, v)]).lookup k = some v := by
  induction d with
  | nil => simp [List.lookup_cons]
  | cons p d ih =>
      obtain ⟨a, b⟩ := p
      have hk : a ≠ k := fun hk => h (List.mem_map.mpr ⟨(a, b), List.mem_cons_self _ _, hk⟩)
      have h' : k ∉ d.map Prod.fst := fun hm => by
        rcases List.mem_map.mp hm with ⟨q, hq, hq1⟩
        exact h (List.mem_map.mpr ⟨q, List.mem_cons_of_mem _ hq, hq1⟩)
      simp [List.lookup_cons, beq_false_of_ne (Ne.symm hk), ih h']

theorem dictSet_lookup_self (d : List (String × Finset String)) (k : String)
    (v : Finset String) :
    (FieldInspector.dictSet d k v).lookup k = some v := by
  unfold FieldInspector.dictSet
  by_cases h : k ∈ d.map Prod.fst
  · rw [if_pos h]; exact lookup_map_replace d k v h
  · rw [if_neg h]; exact lookup_append_missing d k v h

theorem dictGetD_dictSet_self (d : List (String × Finset String)) (k : String)
    (v : Finset String) :
    FieldInspector.dictGetD (FieldInspector.dictSet d k v) k ∅ = v := by
  unfold FieldInspector.dictGetD
  rw [dictSet_lookup_self]
  rfl

theorem dictGetD_singleton (k : String) (v : Finset String) :
    FieldInspector.dictGetD [(k, v)] k ∅ = v := by
  unfold FieldInspector.dictGetD
  simp [List.lookup_cons]

theorem mem_dictSet_standard_iff (m : Model) (X : Finset String)
    (p : String × Finset String) :
    p ∈ FieldInspector.dictSet (FieldInspector.validator_names_standard m) "*" X ↔
      p = ("*", X) ∨
      (p.1 ≠ "*" ∧ p ∈ FieldInspector.validator_names_standard m) := by
  unfold FieldInspector.dictSet
  by_cases h : "*" ∈ (FieldInspector.validator_names_standard m).map Prod.fst
  · rw [if_pos h]
    constructor
    · intro hp
      rcases List.mem_map.mp hp with ⟨q, hq, hq1⟩
      by_cases hq2 : q.1 = "*"
      · left
        rw [← hq1]
        simp only [hq2, if_pos]
      · right
        rw [← hq1]
        simp only [hq2, if_neg, ite_false]
        exact ⟨hq2, hq⟩
    · rintro (rfl | ⟨hne, hp⟩)
      · rcases List.mem_map.mp h with ⟨q, hq, hq1⟩
        refine List.mem_map.mpr ⟨q, hq, ?_⟩
        simp only [hq1, if_pos]
      · refine List.mem_map.mpr ⟨p, hp, ?_⟩
        simp [hne]
  · rw [if_neg h]
    rw [List.mem_append, List.mem_singleton]
    constructor
    · rintro (hp | rfl)
      · right
        refine ⟨?_, hp⟩
        intro h1
        exact h (List.mem_map.mpr ⟨p, hp, h1⟩)
      · left; rfl
    · rintro (rfl | ⟨_, hp⟩)
      · right; rfl
      · left; exact hp

theorem mem_foldr_union {α β : Type} [DecidableEq β] (l : List α) (f : α → Finset β)
    (x : β) :
    x ∈ l.foldr (fun a acc => f a ∪ acc) ∅ ↔ ∃ a ∈ l, x ∈ f a := by
  induction l with
  | nil => simp
  | cons a l ih => simp [ih]

theorem lookup_eq_of_mem_nodup {β : Type} (d : List (String × β)) (k : String) (v : β)
    (hnd : (d.map Prod.fst).Nodup) (h : (k, v) ∈ d) : d.lookup k = some v := by
  induction d with
  | nil => simp at h
  | cons p d ih =>
      obtain ⟨a, b⟩ := p
      rcases List.mem_cons.mp h with heq | h'
      · cases heq
        simp [List.lookup_cons]
      · have hk : a ≠ k := by
          intro hak
          subst hak
          exact (List.nodup_cons.mp hnd).1 (List.mem_map.mpr ⟨(a, v), h', rfl⟩)
        simp [List.lookup_cons, beq_false_of_ne (Ne.symm hk),
          ih (List.nodup_cons.mp hnd).2 h']

/-!
## Computation lemmas for a successful root-name extraction
-/

theorem names_asterisk_ok (m : Model) (rootSet : Finset String)
    (hroot : ValidatorInspector.names_root_validators m = Except.ok rootSet) :
    ValidatorInspector.names_asterisk_validators m =
      Except.ok ((ValidatorInspector.star_wrappers m).toFinset ∪ rootSet) := by
  simp only [ValidatorInspector.names_asterisk_validators, hroot, exbind_ok, expure_eq,
    ValidatorInspector.get_names_from_wrappers]

theorem validator_names_ok (m : Model) (rootSet : Finset String)
    (hroot : ValidatorInspector.names_root_validators m = Except.ok rootSet) :
    FieldInspector.validator_names m =
      Except.ok (FieldInspector.dictSet (FieldInspector.validator_names_standard m) "*"
        ((ValidatorInspector.star_wrappers m).toFinset ∪ rootSet)) := by
  simp only [FieldInspector.validator_names, FieldInspector.validator_names_root,
    hroot, exbind_ok, expure_eq, dictGetD_singleton, dictGetD_standard_star]

theorem create_mappings_asterisk_ok (m : Model) (rootSet : Finset String)
    (hroot : ValidatorInspector.names_root_validators m = Except.ok rootSet) :
    ReferenceInspector.create_mappings_asterisk m =
      Except.ok (((ValidatorInspector.star_wrappers m).toFinset ∪ rootSet).image
        (fun validator =>
          ⟨"all fields", validator, true, ReferenceInspector.model_path m⟩)) := by
  simp only [ReferenceInspector.create_mappings_asterisk,
    validator_names_ok m rootSet hroot, exbind_ok, expure_eq, dictGetD_dictSet_self]

theorem create_mappings_standard_ok (m : Model) (rootSet : Finset String)
    (hroot : ValidatorInspector.names_root_validators m = Except.ok rootSet) :
    ReferenceInspector.create_mappings_standard m =
      Except.ok ((FieldInspector.dictSet (FieldInspector.validator_names_standard m) "*"
          ((ValidatorInspector.star_wrappers m).toFinset ∪ rootSet)).foldr
        (fun p acc =>
          (p.2.filter
            (fun v => v ∉ (ValidatorInspector.star_wrappers m).toFinset ∪ rootSet)).image
            (fun validator =>
              ⟨p.1, validator, false, ReferenceInspector.model_path m⟩) ∪ acc)
        ∅) := by
  simp only [ReferenceInspector.create_mappings_standard,
    validator_names_ok m rootSet hroot, names_asterisk_ok m rootSet hroot,
    exbind_ok, expure_eq]

theorem mem_standard_records_iff (m : Model) (X : Finset String)
    (r : ValidatorFieldMap) :
    r ∈ (FieldInspector.dictSet (FieldInspector.validator_names_standard m) "*" X).foldr
        (fun p acc =>
          (p.2.filter (fun v => v ∉ X)).image
            (fun validator =>
              ⟨p.1, validator, false, ReferenceInspector.model_path m⟩) ∪ acc)
        ∅ ↔
      r.is_asterisk = false ∧ r.model_path = ReferenceInspector.model_path m ∧
      r.field ≠ "*" ∧
      ∃ vs, (r.field, vs) ∈ m.validators_attr ∧ r.validator ∈ vs ∧
        r.validator ∉ X := by
  rw [mem_foldr_union]
  constructor
  · rintro ⟨p, hp, hr⟩
    rw [Finset.mem_image] at hr
    obtain ⟨v, hv, hrv⟩ := hr
    rw [Finset.mem_filter] at hv
    obtain ⟨hv, hvX⟩ := hv
    rcases (mem_dictSet_standard_iff m X p).mp hp with rfl | ⟨hne, hp'⟩
    · exact absurd hv hvX
    · rcases List.mem_map.mp hp' with ⟨q, hq, hq1⟩
      subst hrv
      refine ⟨rfl, rfl, by rw [← hq1] at hne ⊢; exact hne, q.2, ?_, ?_, hvX⟩
      · rw [← hq1]
        simpa using hq
      · rw [← hq1] at hv
        exact List.mem_toFinset.mp hv
  · rintro ⟨hast, hpath, hne, vs, hvs, hv, hvX⟩
    refine ⟨(r.field, vs.toFinset), ?_, ?_⟩
    · refine (mem_dictSet_standard_iff m X _).mpr (Or.inr ⟨hne, ?_⟩)
      exact List.mem_map.mpr ⟨(r.field, vs), hvs, rfl⟩
    · rw [Finset.mem_image]
      refine ⟨r.validator, Finset.mem_filter.mpr ⟨List.mem_toFinset.mpr hv, hvX⟩, ?_⟩
      obtain ⟨rf, rv, ra, rp⟩ := r
      simp only at hast hpath
      rw [hast, hpath]

theorem mem_mappings_ok_iff (m : Model) (rootSet : Finset String)
    (M : Finset ValidatorFieldMap)
    (hroot : ValidatorInspector.names_root_validators m = Except.ok rootSet)
    (hM : ReferenceInspector.mappings m = Except.ok M) (r : ValidatorFieldMap) :
    r ∈ M ↔
      (r.is_asterisk = false ∧ r.model_path = ReferenceInspector.model_path m ∧
        r.field ≠ "*" ∧
        ∃ vs, (r.field, vs) ∈ m.validators_attr ∧ r.validator ∈ vs ∧
          r.validator ∉ (ValidatorInspector.star_wrappers m).toFinset ∪ rootSet) ∨
      (r.is_asterisk = true ∧ r.field = "all fields" ∧
        r.model_path = ReferenceInspector.model_path m ∧
        r.validator ∈ (ValidatorInspector.star_wrappers m).toFinset ∪ rootSet) := by
  simp only [ReferenceInspector.mappings, create_mappings_asterisk_ok m rootSet hroot,
    create_mappings_standard_ok m rootSet hroot, exbind_ok, expure_eq] at hM
  have hMeq := Except.ok.inj hM
  rw [← hMeq, Finset.mem_union]
  apply or_congr
  · exact mem_standard_records_iff m _ r
  · rw [Finset.mem_image]
    constructor
    · rintro ⟨v, hv, rfl⟩
      exact ⟨rfl, rfl, rfl, hv⟩
    · rintro ⟨hast, hfield, hpath, hv⟩
      refine ⟨r.validator, hv, ?_⟩
      obtain ⟨rf, rv, ra, rp⟩ := r
      simp only at hast hfield hpath
      rw [hast, hfield, hpath]

theorem create_sanitized_model_fields (m : Model) :
    (SchemaInspector.create_sanitized_model m).fields =
      m.fields.map (fun p =>
        if p.1 ∈ FieldInspector.non_json_serializable m then (p.1, typevar_field)
        else p) := rfl

theorem create_sanitized_model_name (m : Model) :
    (SchemaInspector.create_sanitized_model m).name = m.name := rfl

theorem mem_non_json_serializable_iff (m : Model)
    (hnd : (m.fields.map Prod.fst).Nodup) {p : String × PyField}
    (hp : p ∈ m.fields) :
    p.1 ∈ FieldInspector.non_json_serializable m ↔ p.2.serializable = false := by
  have hlk : FieldInspector.get m p.1 = some p.2 := by
    apply lookup_eq_of_mem_nodup _ _ _ hnd
    rw [Prod.mk.eta]
    exact hp
  have hmem : p.1 ∈ FieldInspector.names m := List.mem_map.mpr ⟨p, hp, rfl⟩
  unfold FieldInspector.non_json_serializable
  rw [List.mem_filter]
  simp [hmem, FieldInspector.is_json_serializable, hlk]

theorem create_sanitized_fields_pointwise (m : Model)
    (hnd : (m.fields.map Prod.fst).Nodup) :
    (SchemaInspector.create_sanitized_model m).fields =
      m.fields.map (fun p =>
        if p.2.serializable = true then p else (p.1, typevar_field)) := by
  rw [create_sanitized_model_fields]
  apply List.map_congr_left
  intro p hp
  by_cases hs : p.2.serializable = true
  · rw [if_pos hs, if_neg]
    intro hmem
    rw [mem_non_json_serializable_iff m hnd hp] at hmem
    rw [hmem] at hs
    exact Bool.false_ne_true hs
  · rw [if_neg hs, if_pos]
    rw [mem_non_json_serializable_iff m hnd hp]
    exact Bool.not_eq_true _ ▸ hs

theorem create_sanitized_schema_ok (m : Model)
    (hnd : (m.fields.map Prod.fst).Nodup) :
    (SchemaInspector.create_sanitized_model m).schema =
      Except.ok ⟨m.name, (SchemaInspector.create_sanitized_model m).fields⟩ := by
  have hall : (SchemaInspector.create_sanitized_model m).fields.all
      (fun p => p.2.serializable) = true := by
    rw [create_sanitized_fields_pointwise m hnd, List.all_eq_true]
    intro q hq
    rcases List.mem_map.mp hq with ⟨p, _, rfl⟩
    by_cases hs : p.2.serializable = true
    · simp [hs]
    · simp [hs, typevar_field]
  unfold Model.schema
  rw [if_pos hall, create_sanitized_model_name]

/-!
## The claims
-/

/-- C1: the code contradicts the claim.  For any pydantic v1 model with a
pre-processing root validator — whose `__pre_root_validators__` entry is a
bare function — `is_asterisk` raises `TypeError` from `validator[1]` instead
of returning `True` for that validator's name (upstream issue #55; the test
suite's `test_autodoc_pydantic_validator_root_pre` documents the intended
behaviour). -/
theorem is_asterisk_raises_on_pre_root :
    ValidatorInspector.is_asterisk exampleModel "pre_v" =
      Except.error PyError.typeError := rfl

/-- C2: the code contradicts the claim.  For a model with a pre-root
validator, `ReferenceInspector.__init__` raises `TypeError` while building
`mappings` (through `validator_names` and the root-name extraction), so no
cross-reference set ever exists — in particular no
`("all fields", "pre_v", True)` record. -/
theorem mappings_raise_on_pre_root :
    ReferenceInspector.mappings exampleModel = Except.error PyError.typeError := rfl

/-- C3: when schema generation succeeds the original schema is returned
unchanged; when it fails, `sanitized` returns the schema of the substitute
model, that schema generation succeeds, and the substitute model replaces
exactly the non-JSON-serializable fields by the placeholder `TypeVar` field
(with default `None`), keeping every other field. -/
theorem sanitized_schema_behavior (m : Model)
    (hnd : (m.fields.map Prod.fst).Nodup) :
    (∀ s, m.schema = Except.ok s → SchemaInspector.sanitized m = Except.ok s) ∧
    (∀ e, m.schema = Except.error e →
      SchemaInspector.sanitized m = (SchemaInspector.create_sanitized_model m).schema ∧
      (SchemaInspector.create_sanitized_model m).schema =
        Except.ok ⟨m.name, (SchemaInspector.create_sanitized_model m).fields⟩ ∧
      ∀ i : Nat, ((SchemaInspector.create_sanitized_model m).fields)[i]? =
        (m.fields[i]?).map
          (fun p => if p.2.serializable = true then p else (p.1, typevar_field))) := by
  constructor
  · intro s hs
    unfold SchemaInspector.sanitized
    rw [hs]
  · intro e he
    refine ⟨?_, create_sanitized_schema_ok m hnd, ?_⟩
    · unfold SchemaInspector.sanitized
      rw [he]
    · intro i
      rw [create_sanitized_fields_pointwise m hnd]
      simp

/-- C3 witness: `exampleModel` has a non-serializable field `"c"`, so its
schema generation fails and `sanitized` falls back to the substitute model. -/
theorem sanitized_schema_behavior_witness :
    SchemaInspector.sanitized exampleModel =
      (SchemaInspector.create_sanitized_model exampleModel).schema :=
  ((sanitized_schema_behavior exampleModel (by decide)).2 PyError.valueError rfl).1

/-- C4: every record of a successfully built `mappings` set references the
`"all fields"` wildcard or a declared field, given that validator bindings
target declared fields or `"*"` (pydantic enforces this at class creation);
no record references an undeclared field. -/
theorem mappings_reference_declared_fields (m : Model)
    (M : Finset ValidatorFieldMap)
    (hM : ReferenceInspector.mappings m = Except.ok M)
    (hwf : ∀ k ∈ m.validators_attr.map Prod.fst,
      k = "*" ∨ k ∈ FieldInspector.names m) :
    ∀ r ∈ M, r.field = "all fields" ∨ r.field ∈ FieldInspector.names m := by
  intro r hr
  cases hroot : ValidatorInspector.names_root_validators m with
  | error e =>
      simp only [ReferenceInspector.mappings, ReferenceInspector.create_mappings_asterisk,
        FieldInspector.validator_names, FieldInspector.validator_names_root, hroot,
        exbind_error, exbind_ok, expure_eq] at hM
      exact Except.noConfusion hM
  | ok rootSet =>
      rcases (mem_mappings_ok_iff m rootSet M hroot hM r).mp hr with
        ⟨_, _, hne, vs, hvs, _, _⟩ | ⟨_, hfield, _, _⟩
      · have hk : r.field ∈ m.validators_attr.map Prod.fst :=
          List.mem_map.mpr ⟨(r.field, vs), hvs, rfl⟩
        rcases hwf _ hk with heq | hmem
        · exact absurd heq hne
        · exact Or.inr hmem
      · exact Or.inl hfield

/-- C4 witness: the inspection succeeds on `exampleModelPost` and its
standard record on field `"a"` references a declared field. -/
theorem mappings_reference_declared_fields_witness :
    (⟨"a", "check_a", false, "example.P"⟩ : ValidatorFieldMap).field = "all fields" ∨
      (⟨"a", "check_a", false, "example.P"⟩ : ValidatorFieldMap).field ∈
        FieldInspector.names exampleModelPost :=
  mappings_reference_declared_fields exampleModelPost examplePostMappings rfl
    (by decide) ⟨"a", "check_a", false, "example.P"⟩ (by decide)

/-- C5: the code contradicts the claim.  For a model with a pre-root
validator, the `ModelWrapper` construction inside `factory` raises
`TypeError` before the cache assignment runs, so every call raises, the
construction is re-attempted on each call, and no wrapper is ever returned
or cached. -/
theorem factory_raises_and_caches_nothing_on_pre_root :
    ModelWrapper.factory [] exampleModel =
      (Except.error PyError.typeError, [], 1) ∧
    ModelWrapper.factory
        (ModelWrapper.factory [] exampleModel).2.1 exampleModel =
      (Except.error PyError.typeError, [], 1) := ⟨rfl, rfl⟩

/-- C6: the code contradicts the claim.  `names`,
`names_standard_validators` and `names_asterisk_validators` all extract root
validator names with `validator[1].__name__`, so for a model with a pre-root
validator every one of them raises `TypeError` and no partition of the
validator names is ever computed. -/
theorem classification_raises_on_pre_root :
    ValidatorInspector.names exampleModel = Except.error PyError.typeError ∧
    ValidatorInspector.names_standard_validators exampleModel =
      Except.error PyError.typeError ∧
    ValidatorInspector.names_asterisk_validators exampleModel =
      Except.error PyError.typeError := ⟨rfl, rfl, rfl⟩

/-- C7: the code contradicts the claim.  The absent `"*"` entry is indeed
read with `.get("*", [])`, but for a model with a pre-root validator
`names_asterisk_validators` still raises `TypeError` from the root-name
extraction instead of returning the root-validator name set without error. -/
theorem names_asterisk_raises_without_star_entry :
    exampleModelNoStar.validators_attr.lookup "*" = none ∧
    ValidatorInspector.names_asterisk_validators exampleModelNoStar =
      Except.error PyError.typeError := ⟨rfl, rfl⟩

/-- C8: `FieldInspector.names` returns the field names in declaration order
(position by position, nothing added, dropped, or reordered), and
`ModelWrapper.get_fields` on any successfully constructed wrapper returns
exactly that list. -/
theorem field_names_declaration_order (m : Model) (i : Nat) :
    (FieldInspector.names m).length = m.fields.length ∧
    (FieldInspector.names m)[i]? = (m.fields[i]?).map Prod.fst ∧
    (∀ w, ModelWrapper.ofModel m = Except.ok w →
      ModelWrapper.get_fields w = FieldInspector.names m) := by
  refine ⟨by simp [FieldInspector.names], by simp [FieldInspector.names], ?_⟩
  intro w hw
  cases hmap : ReferenceInspector.mappings m with
  | ok M =>
      have hok : ModelWrapper.ofModel m = Except.ok ⟨m, ⟨m, M⟩⟩ := by
        simp only [ModelWrapper.ofModel, ModelInspector.ofModel, hmap,
          exbind_ok, expure_eq]
      rw [hok] at hw
      cases Except.ok.inj hw
      rfl
  | error e =>
      have herr : ModelWrapper.ofModel m = Except.error e := by
        simp only [ModelWrapper.ofModel, ModelInspector.ofModel, hmap,
          exbind_error, exbind_ok, expure_eq]
      rw [herr] at hw
      exact Except.noConfusion hw

/-- C8 witness: the wrapper construction succeeds on `exampleModelPost` and
`get_fields` returns its field names. -/
theorem field_names_declaration_order_witness :
    ModelWrapper.get_fields examplePostWrapper =
      FieldInspector.names exampleModelPost :=
  (field_names_declaration_order exampleModelPost 0).2.2 examplePostWrapper rfl

/-- C9: `validator_ref` is the model path extended by the validator name;
`field_ref` is the bare model path for asterisk records and the model path
extended by the field name otherwise. -/
theorem validator_field_map_refs (r : ValidatorFieldMap) :
    r.validator_ref = r.model_path ++ "." ++ r.validator ∧
    (r.is_asterisk = true → r.field_ref = r.model_path) ∧
    (r.is_asterisk = false → r.field_ref = r.model_path ++ "." ++ r.field) := by
  unfold ValidatorFieldMap.validator_ref ValidatorFieldMap.field_ref
    ValidatorFieldMap.get_ref
  refine ⟨rfl, fun h => ?_, fun h => ?_⟩ <;> simp [h]

/-- C9 witness on a concrete asterisk record. -/
theorem validator_field_map_refs_witness :
    (⟨"all fields", "pre_v", true, "example.M"⟩ : ValidatorFieldMap).field_ref =
      "example.M" :=
  (validator_field_map_refs ⟨"all fields", "pre_v", true, "example.M"⟩).2.1 rfl

/-- C10: `is_required` reports `True` exactly when the field's default is the
`Undefined` sentinel or the `Ellipsis` object; an explicit `None` default is
reported as not required. -/
theorem is_required_default_sentinel (m : Model) (name : String) (f : PyField)
    (h : FieldInspector.get m name = some f) :
    (FieldInspector.is_required m name = some true ↔
      f.fieldInfo.default = PyDefault.undefined ∨
        f.fieldInfo.default = PyDefault.ellipsis) ∧
    (f.fieldInfo.default = PyDefault.noneVal →
      FieldInspector.is_required m name = some false) := by
  unfold FieldInspector.is_required FieldInspector.get_default
  rw [h]
  constructor
  · cases hd : f.fieldInfo.default <;>
      simp [FieldInspector.isinstance_undefined_or_ellipsis, hd]
  · intro hd
    simp [hd, FieldInspector.isinstance_undefined_or_ellipsis]

/-- C10 witness: field `"b"` of `exampleModel` has an explicit `None` default
and is reported as not required. -/
theorem is_required_default_sentinel_witness :
    FieldInspector.is_required exampleModel "b" = some false :=
  (is_required_default_sentinel exampleModel "b" ⟨⟨.noneVal⟩, true⟩ (by decide)).2 rfl
